import Mathlib

/-!
# Verification of the `flag` command-line / INI configuration library

Shallow embedding of `src/flag.h` and `src/ini.h` (C, single-header library).
Strings are modelled as `List Char` (C strings without their terminating NUL;
the sources never place NUL bytes inside keys, values or tokens).  Stateful C
code is modelled by explicit state passing; loops whose iteration count is
bounded by the remaining input are written with an explicit fuel argument that
the wrapper instantiates above that bound, so that the fuel-exhausted branch
is unreachable for every input considered here.

The model covers the `WITH_INI` build of the library (the configuration claims
need it).  Out of scope, because no claim depends on them: usage/help text
rendering, the global default flag set wrappers (thin forwarding), the
`INI_MAX_LINE_SIZE` buffering of `fgets` (no claim involves physical lines of
512 bytes or more; a file is modelled as its list of physical lines), and the
numeric value produced by `strtof`/`strtod` (floating point; the model records
the accepted source text instead, and no claim exercises a float flag).
-/

set_option autoImplicit false

namespace FlagLib

/-- C `isspace` in the C locale over ASCII: space and the characters 9–13
(tab, newline, vertical tab, form feed, carriage return). -/
def isspace (c : Char) : Bool :=
  c.toNat == 32 || (9 ≤ c.toNat && c.toNat ≤ 13)

/-- `trimRight(src, len)` from `src/ini.h` returns the length that remains
after dropping trailing whitespace; modelled as the corresponding prefix. -/
def trimRight (s : List Char) : List Char :=
  (s.reverse.dropWhile isspace).reverse

/-- `trimLeft(src, len)` from `src/ini.h` returns the index of the first
non-whitespace character; modelled as the corresponding suffix. -/
def trimLeft (s : List Char) : List Char :=
  s.dropWhile isspace

/-- `lookupChar(buf, len, c)` from `src/ini.h`: index of the first occurrence
of `c`, `-1` (here `none`) when absent. -/
def lookupChar (buf : List Char) (c : Char) : Option Nat :=
  buf.findIdx? (fun x => x == c)

/-- C `strncmp(a, b, n) == 0` on NUL-terminated strings: compares at most `n`
characters and stops early at a terminator; the lists carry the characters
before the terminator. -/
def cstrncmpEq : List Char → List Char → Nat → Bool
  | _, _, 0 => true
  | [], [], _ => true
  | [], _ :: _, _ => false
  | _ :: _, [], _ => false
  | a :: as, b :: bs, n + 1 => a == b && cstrncmpEq as bs n

theorem cstrncmpEq_zero (a b : List Char) : cstrncmpEq a b 0 = true := by
  cases a <;> cases b <;> rfl

/-- Comparing through the first argument's own length decides whether the
first argument is a prefix of the second. -/
theorem cstrncmpEq_self_len : ∀ a b : List Char,
    cstrncmpEq a b a.length = a.isPrefixOf b
  | [], b => by cases b <;> rfl
  | _ :: _, [] => by simp [cstrncmpEq, List.isPrefixOf]
  | a :: as, b :: bs => by
    simp [cstrncmpEq, List.isPrefixOf, cstrncmpEq_self_len as bs]

/-- Comparing through the second argument's own length decides whether the
second argument is a prefix of the first. -/
theorem cstrncmpEq_arg_len : ∀ a b : List Char,
    cstrncmpEq a b b.length = b.isPrefixOf a
  | a, [] => by cases a <;> rfl
  | [], _ :: _ => by simp [cstrncmpEq, List.isPrefixOf]
  | a :: as, b :: bs => by
    have hc : (a == b) = (b == a) := by
      cases hx : decide (a = b) <;> simp_all [eq_comm]
    simp [cstrncmpEq, List.isPrefixOf, cstrncmpEq_arg_len as bs, hc]

/-! ## The INI line scanner (`src/ini.h`) -/

/-- `INI_MAX_KEY_SIZE` (not used directly by `flag.h`, which passes its own
bound). -/
def INI_MAX_KEY_SIZE : Nat := 128

/-- `struct IniParser`: the unread physical lines of the file stand in for
the `FILE*` handle, and `cur` is the window `line + cursor` of length
`line_len` into the line buffer (the buffer is right-trimmed at read time).
`fileOwned` is the `file_owned` flag: `iniParserOpen` sets it, `iniParserNew`
does not, and `iniParserFree` closes the stream only when it is set. -/
structure IniParser where
  rest : List (List Char)
  cur : List Char
  fileOwned : Bool
deriving DecidableEq, Repr

/-- `iniParserConsume`: reads the next line into the buffer and right-trims
it; returns `false` at end of file (with the buffer cleared). -/
def iniParserConsume (p : IniParser) : IniParser × Bool :=
  match p.rest with
  | [] => ({ p with cur := [] }, false)
  | l :: ls => ({ p with rest := ls, cur := trimRight l }, true)

/-- `iniParserLine`: left-trims the current window in place and returns it;
an empty result models the C function returning `NULL` with `*len = 0`. -/
def iniParserLine (p : IniParser) : IniParser × List Char :=
  let t := trimLeft p.cur
  ({ p with cur := t }, t)

/-- Result of `iniParseKey`: a positive length with the key copied out, `0`
at end of file, `INI_ERROR_CODE_OVERFLOW` (-1), or `INI_ERROR_INVALID_SYNTAX`
(-2). -/
inductive IniKeyResult where
  | found (key : List Char)
  | eofReached
  | overflow
  | synError
deriving DecidableEq, Repr

/-- Loop body of `iniParseKey`.  The fuel is instantiated by `iniParseKey` to
`p.rest.length + 1`; every iteration consumes one line, so the fuel never
reaches zero (the `0` arm mirrors the EOF exit). -/
def iniParseKeyGo : Nat → IniParser → Nat → IniParser × IniKeyResult
  | 0, p, _ => (p, .eofReached)
  | n + 1, p, maxlen1 =>
    let pc := iniParserConsume p
    match pc.2 with
    | false => (pc.1, .eofReached)
    | true =>
      let pl := iniParserLine pc.1
      let p2 := pl.1
      let t := pl.2
      if t = [] ∨ t.head? = some ';' ∨ t.head? = some '#' then
        iniParseKeyGo n p2 maxlen1
      else
        match lookupChar t '=' with
        | none => (p2, .synError)
        | some sep =>
          if sep < 2 then (p2, .synError)
          else
            let p3 : IniParser := { p2 with cur := t.drop (sep + 1) }
            let key := trimRight (t.take sep)
            if maxlen1 < key.length then (p3, .overflow)
            else (p3, .found key)

/-- `iniParseKey(parser, dst, maxlen)`: skips blank and comment lines, splits
the next content line at its first `=` (an `=` at index 0 or 1, or a line
without `=`, is a syntax error), right-trims the key and copies it out unless
it exceeds `maxlen - 1` characters (overflow).  The cursor is left after the
`=` so that `iniParseValue` can read the value. -/
def iniParseKey (p : IniParser) (maxlen : Nat) : IniParser × IniKeyResult :=
  iniParseKeyGo (p.rest.length + 1) p (maxlen - 1)

/-- Loop body of `iniParseValue` for values carrying a `\` continuation
marker.  Called only when the C loop condition `more && length > 0 &&
maxlen > 0` holds (the first two arguments carry `line` and the accumulated
`dst`); when the body does not consume a further line the loop condition is
false at its next check, so the C loop exits with the same state that the
direct return produces here.  The fuel is instantiated above the number of
unread lines and never reaches zero. -/
def iniParseValueGo : Nat → IniParser → List Char → List Char → Nat → IniParser × List Char
  | 0, p, _, dst, _ => (p, dst)
  | n + 1, p, line, dst, maxlen =>
    if line = [] ∨ maxlen = 0 then (p, dst)
    else
      let more := line.getLast? = some '\\'
      let line1 := if more then trimRight line.dropLast else line
      let frag := line1.take maxlen
      let dst1 := dst ++ frag
      let m1 := maxlen - frag.length
      let dst2 := if 0 < m1 then dst1 ++ [' '] else dst1
      let m2 := if 0 < m1 then m1 - 1 else m1
      if more ∧ 0 < m2 then
        let pc := iniParserConsume p
        let pl := iniParserLine pc.1
        iniParseValueGo n pl.1 pl.2 dst2 m2
      else (p, dst2)

/-- `iniParseValue(parser, dst, maxlen)`: left-trims the remainder of the key
line; an empty remainder returns length `0` with `dst` untouched (modelled as
`[]`, exactly what the caller's `== 0` test observes).  A value without a
trailing `\` is copied (capped to `maxlen - 1`).  Otherwise fragments are
joined: each fragment has the marker stripped and is re-trimmed, a single
`' '` separator is appended after every copied fragment while capacity
remains — including the final one — and the next physical line is read only
while the previous fragment ended in the marker. -/
def iniParseValue (p : IniParser) (maxlen : Nat) : IniParser × List Char :=
  let pl := iniParserLine p
  let p1 := pl.1
  let line := pl.2
  if line = [] then (p1, [])
  else
    let m := maxlen - 1
    if line.getLast? ≠ some '\\' then
      (p1, line.take m)
    else
      iniParseValueGo (p1.rest.length + 1) p1 line [] m

/-! ## Scalar coercion primitives (`src/flag.h`) -/

/-- `LONG_MIN` on the 64-bit targets the library is built for. -/
def longMin : Int := -(2 ^ 63)

/-- `LONG_MAX` on the 64-bit targets the library is built for. -/
def longMax : Int := 2 ^ 63 - 1

/-- `INT_MIN`. -/
def intMin : Int := -(2 ^ 31)

/-- `INT_MAX`. -/
def intMax : Int := 2 ^ 31 - 1

/-- Numeric value of a digit run. -/
def digitsVal (ds : List Char) : Nat :=
  ds.foldl (fun a c => a * 10 + (c.toNat - 48)) 0

/-- On overflow `strtol` clamps its result to the `long` range (and sets
`errno`, which the callers in `flag.h` never read). -/
def clampLong (v : Int) : Int :=
  max longMin (min longMax v)

/-- Model of `strtol(s, &end, 10)`: skips leading whitespace, then an
optional sign, then base-10 digits.  Returns `(value, consumed)` where
`consumed` is the distance from the start of the input to `end`; when no
digit is found the C function performs no conversion and sets `end` back to
the start of the input, modelled as `consumed = 0`. -/
def strtolModel (s : List Char) : Int × Nat :=
  let ws := (s.takeWhile isspace).length
  let s1 := s.drop ws
  let sgnLen := match s1 with
    | c :: _ => if c = '+' ∨ c = '-' then 1 else 0
    | [] => 0
  let neg := s1.head? = some '-'
  let digits := (s1.drop sgnLen).takeWhile Char.isDigit
  if digits.length = 0 then (0, 0)
  else
    let mag : Int := Int.ofNat (digitsVal digits)
    (clampLong (if neg then -mag else mag), ws + sgnLen + digits.length)

/-- Number of characters consumed by `strtof`/`strtod` in the C locale,
modelled for decimal forms only (the hexadecimal, infinity and NaN spellings
are not modelled: no claim exercises a float flag).  Returns `0` when no
conversion is performed, which is the only thing the callers test
(`end == value`). -/
def strtofConsumed (s : List Char) : Nat :=
  let ws := (s.takeWhile isspace).length
  let s1 := s.drop ws
  let sgnLen := match s1 with
    | c :: _ => if c = '+' ∨ c = '-' then 1 else 0
    | [] => 0
  let s2 := s1.drop sgnLen
  let ip := (s2.takeWhile Char.isDigit).length
  let s3 := s2.drop ip
  let hasDot := s3.head? = some '.'
  let fp := if hasDot then ((s3.drop 1).takeWhile Char.isDigit).length else 0
  if ip = 0 ∧ fp = 0 then 0
  else
    let mant := ip + (if hasDot then 1 + fp else 0)
    let s4 := s3.drop (if hasDot then 1 + fp else 0)
    let ex := match s4 with
      | e :: t =>
        if e = 'e' ∨ e = 'E' then
          let es := match t with
            | c :: _ => if c = '+' ∨ c = '-' then 1 else 0
            | [] => 0
          let ed := ((t.drop es).takeWhile Char.isDigit).length
          if ed = 0 then 0 else 1 + es + ed
        else 0
      | [] => 0
    ws + sgnLen + mant + ex

/-- The fields of `struct tm` that `FLAGS_TIME_FMT` can fill. -/
structure Tm where
  tmSec : Int
  tmMin : Int
  tmHour : Int
  tmMday : Int
  tmMon : Int
  tmYear : Int
deriving DecidableEq, Repr

/-- `struct tm result = { 0 }`. -/
def zeroTm : Tm := ⟨0, 0, 0, 0, 0, 0⟩

/-- One numeric directive of `strptime`: reads at least one and at most
`width` digits and range-checks the value, as glibc's `get_number` does. -/
def parseNum (s : List Char) (lo hi : Int) (width : Nat) : Option (Int × List Char) :=
  let ds := (s.take width).takeWhile Char.isDigit
  if ds.length = 0 then none
  else
    let v : Int := Int.ofNat (digitsVal ds)
    if lo ≤ v ∧ v ≤ hi then some (v, s.drop ds.length) else none

/-- Model of `strptime(s, FLAGS_TIME_FMT, &result)` for the library's fixed
format `"%Y-%m-%dT%H:%M:%S"`.  Returns the (possibly partially) filled `tm`
— glibc fills fields as it parses them — together with `some consumed` on
success (the returned pointer is `s + consumed`) or `none` on a mismatch
(the C function returns `NULL`). -/
def strptimeModel (s : List Char) : Tm × Option Nat :=
  match parseNum s 0 9999 4 with
  | none => (zeroTm, none)
  | some yr =>
    let t1 : Tm := { zeroTm with tmYear := yr.1 - 1900 }
    match yr.2 with
    | '-' :: r1 =>
      (match parseNum r1 1 12 2 with
      | none => (t1, none)
      | some mo =>
        let t2 : Tm := { t1 with tmMon := mo.1 - 1 }
        match mo.2 with
        | '-' :: r2 =>
          (match parseNum r2 1 31 2 with
          | none => (t2, none)
          | some dy =>
            let t3 : Tm := { t2 with tmMday := dy.1 }
            match dy.2 with
            | 'T' :: r3 =>
              (match parseNum r3 0 23 2 with
              | none => (t3, none)
              | some hr =>
                let t4 : Tm := { t3 with tmHour := hr.1 }
                match hr.2 with
                | ':' :: r4 =>
                  (match parseNum r4 0 59 2 with
                  | none => (t4, none)
                  | some mi =>
                    let t5 : Tm := { t4 with tmMin := mi.1 }
                    match mi.2 with
                    | ':' :: r5 =>
                      (match parseNum r5 0 61 2 with
                      | none => (t5, none)
                      | some sc =>
                        ({ t5 with tmSec := sc.1 }, some (s.length - sc.2.length)))
                    | _ => (t5, none))
                | _ => (t4, none))
            | _ => (t3, none))
        | _ => (t2, none))
    | _ => (t1, none)

/-- Days between 1970-01-01 and the given civil date (proleptic Gregorian). -/
def daysFromCivil (y m d : Int) : Int :=
  let y1 := y - (if m ≤ 2 then 1 else 0)
  let era := (if 0 ≤ y1 then y1 else y1 - 399) / 400
  let yoe := y1 - era * 400
  let mp := (m + 9) % 12
  let doy := (153 * mp + 2) / 5 + d - 1
  let doe := yoe * 365 + yoe / 4 - yoe / 100 + doy
  era * 146097 + doe - 719468

/-- Model of `mktime`: seconds since the Unix epoch computed from the `tm`
fields.  `mktime` interprets `tm` in the local time zone; the model fixes
UTC — no claim depends on the numeric value, only on whether the destination
is written. -/
def mktimeModel (t : Tm) : Int :=
  let days := daysFromCivil (t.tmYear + 1900) (t.tmMon + 1) t.tmMday
  ((days * 24 + t.tmHour) * 60 + t.tmMin) * 60 + t.tmSec

/-! ## The flag registry (`src/flag.h`) -/

/-- `FLAGS_MAX` (registration asserts the count stays below it; the model
uses an unbounded list and no claim registers 256 flags). -/
def FLAGS_MAX : Nat := 256

/-- `FLAGS_FLAG_MAX_LEN`: bound for the error-name buffer and for the key
buffer handed to `iniParseKey`. -/
def FLAGS_FLAG_MAX_LEN : Nat := 64

/-- `CONFIG_BUFFER_SIZE`: bound of the key/value buffer in
`parseIniConfig`. -/
def CONFIG_BUFFER_SIZE : Nat := 512

/-- `FlagType`. -/
inductive FlagType where
  | tBool
  | tString
  | tInt
  | tFloat
  | tDouble
  | tTime
deriving DecidableEq, Repr

/-- Provenance of a string destination: `borrowed` models storing a pointer
into caller-owned storage (`*dst = value`), `owned` models storing a heap
copy made by `stringDuplicate`. -/
inductive StrVal where
  | borrowed (s : List Char)
  | owned (s : List Char)
deriving DecidableEq, Repr

/-- Whether a stored string is a parser-owned copy rather than a reference
into caller-owned storage. -/
def strValIsOwned : StrVal → Bool
  | .owned _ => true
  | .borrowed _ => false

/-- Contents of a flag's caller-owned destination.  The registry stores a
pointer to that storage; since each registration binds its own destination
(aliasing is excluded by a caller invariant, spec §5), the model keeps the
cell inside the flag.  Float and double destinations record the accepted
source text: the numeric conversion is floating point and no claim examines
it. -/
inductive FlagValue where
  | vBool (b : Bool)
  | vString (s : StrVal)
  | vInt (i : Int)
  | vFloat (text : List Char)
  | vDouble (text : List Char)
  | vTime (t : Int)
deriving DecidableEq, Repr

/-- `Flag`: one registered flag.  The description is omitted: it is only read
by usage rendering, which is out of scope.  `shortName = Char.ofNat 0` means
no short name, as in the C struct. -/
structure Flag where
  type : FlagType
  name : List Char
  shortName : Char
  value : FlagValue
deriving DecidableEq, Repr

/-- `FlagErrorCode`. -/
inductive FlagErrorCode where
  | codeNone
  | codeHelp
  | codeUnknown
  | codeMissingValue
  | codeInvalidValue
  | codeOpenConfigFile
deriving DecidableEq, Repr

/-- `struct FlagSet` (the `WITH_INI` build; `config_flag_name == NULL` is
`configFlagName = none`, and the config flag description is omitted like the
flag descriptions). -/
structure FlagSet where
  flags : List Flag
  errorCode : FlagErrorCode
  errorFlagName : List Char
  configFlagName : Option (List Char)
  configFlagShort : Char
  ignoreUnknown : Bool
deriving DecidableEq, Repr

/-- `flagSetNew` zero-initializes the set. -/
def flagSetNew : FlagSet :=
  { flags := [], errorCode := .codeNone, errorFlagName := [],
    configFlagName := none, configFlagShort := Char.ofNat 0,
    ignoreUnknown := false }

/-- `flagSetIgnoreUnknown`. -/
def flagSetIgnoreUnknown (fs : FlagSet) (ignore : Bool) : FlagSet :=
  { fs with ignoreUnknown := ignore }

/-- `flagMake` + the per-type registration writing the default into the
bound destination.  `flagSetBoolVar` always writes `false`. -/
def flagSetBoolVar (fs : FlagSet) (name : List Char) (short : Char) : FlagSet :=
  { fs with flags := fs.flags ++ [⟨.tBool, name, short, .vBool false⟩] }

/-- `flagSetStringVar`: the default is the caller's string, stored by
pointer (`*dst = default_value`), hence `borrowed`. -/
def flagSetStringVar (fs : FlagSet) (name : List Char) (short : Char)
    (dflt : List Char) : FlagSet :=
  { fs with flags := fs.flags ++ [⟨.tString, name, short, .vString (.borrowed dflt)⟩] }

/-- `flagSetIntVar`. -/
def flagSetIntVar (fs : FlagSet) (name : List Char) (short : Char)
    (dflt : Int) : FlagSet :=
  { fs with flags := fs.flags ++ [⟨.tInt, name, short, .vInt dflt⟩] }

/-- `flagSetTimeVar`. -/
def flagSetTimeVar (fs : FlagSet) (name : List Char) (short : Char)
    (dflt : Int) : FlagSet :=
  { fs with flags := fs.flags ++ [⟨.tTime, name, short, .vTime dflt⟩] }

/-- `flagSetConfig`. -/
def flagSetConfig (fs : FlagSet) (name : List Char) (short : Char) : FlagSet :=
  { fs with configFlagName := some name, configFlagShort := short }

/-- `setError`: records the first error code and copies the offending name
into the bounded buffer (`strncpy` with `FLAGS_FLAG_MAX_LEN`). -/
def setError (fs : FlagSet) (code : FlagErrorCode) (name : List Char) : FlagSet :=
  { fs with errorCode := code, errorFlagName := name.take FLAGS_FLAG_MAX_LEN }

/-- Writing through a flag's destination pointer. -/
def updateAt : List Flag → Nat → (Flag → Flag) → List Flag
  | [], _, _ => []
  | f :: fsx, 0, g => g f :: fsx
  | f :: fsx, n + 1, g => f :: updateAt fsx n g

/-- `*((T*)conf->ptr) = v` for the flag at index `i`. -/
def setFlagValue (fs : FlagSet) (i : Nat) (v : FlagValue) : FlagSet :=
  { fs with flags := updateAt fs.flags i (fun f => { f with value := v }) }

/-- `stringDuplicate(src, maxlen)`: copies at most `maxlen` characters of
`src` into a fresh heap buffer. -/
def stringDuplicate (src : List Char) (maxlen : Nat) : List Char :=
  src.take (min src.length maxlen)

/-- Linear first-match scan over the registered flags, returning the index
(the C code returns the `Flag*`; the index identifies the destination). -/
def findFlagAux (q : Flag → Bool) : List Flag → Nat → Option (Nat × Flag)
  | [], _ => none
  | f :: fsx, i => if q f then some (i, f) else findFlagAux q fsx (i + 1)

/-- First registered flag satisfying `q`, with its index. -/
def findFlag (q : Flag → Bool) (l : List Flag) : Option (Nat × Flag) :=
  findFlagAux q l 0

/-- `lookupFlag(fs, dst, flag)`: a token shorter than 2 characters or not
starting with `-` matches nothing; `--name` scans with
`strncmp(item->name, name, len - 2)`; a 2-character `-X` compares short
names exactly. -/
def lookupFlag (fs : FlagSet) (flag : List Char) : Option (Nat × Flag) :=
  match flag with
  | c0 :: c1 :: rest =>
    if c0 = '-' then
      if c1 = '-' then
        findFlag (fun f => cstrncmpEq f.name rest rest.length) fs.flags
      else if rest = [] then
        findFlag (fun f => f.shortName = c1) fs.flags
      else none
    else none
  | _ => none

/-- `lookupConfigFlag(fs, dst, flag)`: an empty key matches nothing; a
non-empty key scans with `strncmp(item->name, flag, strlen(flag))`. -/
def lookupConfigFlag (fs : FlagSet) (key : List Char) : Option (Nat × Flag) :=
  if key.length < 1 then none
  else findFlag (fun f => cstrncmpEq f.name key key.length) fs.flags

/-- `isHelpFlag`. -/
def isHelpFlag (flag : List Char) : Bool :=
  match flag with
  | c0 :: c1 :: rest =>
    if c0 = '-' then
      if c1 = '-' then rest == ("help").toList
      else if rest = [] then c1 == 'h'
      else false
    else false
  | _ => false

/-- `isConfigFlag`: the same token grammar as `lookupFlag`, matched against
the registered config-flag name (prefix comparison) or short name. -/
def isConfigFlag (fs : FlagSet) (flag : List Char) : Bool :=
  match fs.configFlagName with
  | none => false
  | some cname =>
    match flag with
    | c0 :: c1 :: rest =>
      if c0 = '-' then
        if c1 = '-' then cstrncmpEq cname rest rest.length
        else if rest = [] then
          (fs.configFlagShort != Char.ofNat 0) && (c1 == fs.configFlagShort)
        else false
      else false
    | _ => false

/-! ## Argument parsing and INI merging (`src/flag.h`, `WITH_INI` build) -/

/-- A file system for `iniParserOpen`: file name to list of physical lines
(without their trailing newline, which `trimRight` would discard anyway).
`iniParserOpen` succeeds exactly on the names present. -/
abbrev FileSys := List (List Char × List (List Char))

/-- `fopen(filename, "r")` followed by `iniParserOpen`'s NULL check. -/
def fsysOpen (fsys : FileSys) (filename : List Char) : Option (List (List Char)) :=
  match fsys.find? (fun e => e.1 == filename) with
  | none => none
  | some e => some e.2

/-- The `switch (conf->type)` of `parseIniConfig` applied to one extracted
value `v` (the buffer contents of length `value_len`).  Returns the updated
set and `true`, or the set with the error recorded and `false` (the caller
then frees its parser and aborts).  The Bool case is
`strncmp(buf, "true"/"false", value_len)`, i.e. a comparison capped at the
value's own length. -/
def applyConfigValue (fs : FlagSet) (i : Nat) (conf : Flag) (v : List Char) :
    FlagSet × Bool :=
  match conf.type with
  | .tBool =>
    if cstrncmpEq v (("true").toList) v.length then
      (setFlagValue fs i (.vBool true), true)
    else if cstrncmpEq v (("false").toList) v.length then
      (setFlagValue fs i (.vBool false), true)
    else (setError fs .codeInvalidValue conf.name, false)
  | .tString =>
    (setFlagValue fs i (.vString (.owned (stringDuplicate v v.length))), true)
  | .tInt =>
    let rc := strtolModel v
    if rc.2 = 0 ∨ rc.1 < intMin ∨ intMax < rc.1 then
      (setError fs .codeInvalidValue conf.name, false)
    else (setFlagValue fs i (.vInt rc.1), true)
  | .tFloat =>
    let c := strtofConsumed v
    if c = 0 then (setError fs .codeInvalidValue conf.name, false)
    else (setFlagValue fs i (.vFloat (v.take c)), true)
  | .tDouble =>
    let c := strtofConsumed v
    if c = 0 then (setError fs .codeInvalidValue conf.name, false)
    else (setFlagValue fs i (.vDouble (v.take c)), true)
  | .tTime =>
    let sr := strptimeModel v
    if sr.2 = some 0 then (setError fs .codeInvalidValue conf.name, false)
    else (setFlagValue fs i (.vTime (mktimeModel sr.1)), true)

/-- The body of `parseIniConfig(fs, filename)` — the
`while (iniParseKey(parser, buf, FLAGS_FLAG_MAX_LEN) > 0)` loop together
with the recursion into chained configuration files, which the C code
performs by calling `parseIniConfig` again (the wrapper below): the chain
branch here inlines that wrapper's body, spending one unit of fuel, so that
the whole recursion is structural on `fuel`.  `fuel` therefore bounds loop
iterations plus chaining depth together; the C code bounds neither (spec §5:
no cycle guard), and every theorem below supplies more fuel than its acyclic
file system can consume, so the `0` arm is never reached there.

The third component of the result counts how many times this invocation
calls `iniParserFree` on the parser created for this file (nested
invocations count their own parsers); `iniParserFree` closes the stream
exactly when `fileOwned` is set, which always holds here because the parser
comes from `iniParserOpen`.  Note that the loop condition `> 0` makes the
scanner's negative error returns (`INI_ERROR_INVALID_SYNTAX`,
`INI_ERROR_CODE_OVERFLOW`) leave the loop exactly like the EOF return `0`:
the function then returns `true` with no error recorded and without freeing
the parser, as the final `return true` of the C function does. -/
def iniLoop : Nat → FileSys → FlagSet → IniParser → FlagSet × Bool × Nat
  | 0, _, fs, _ => (fs, false, 0)
  | n + 1, fsys, fs, p =>
    let kr := iniParseKey p FLAGS_FLAG_MAX_LEN
    match kr.2 with
    | .eofReached => (fs, true, 0)
    | .synError => (fs, true, 0)
    | .overflow => (fs, true, 0)
    | .found key =>
      let p1 := kr.1
      if fs.configFlagName = some key then
        let vr := iniParseValue p1 CONFIG_BUFFER_SIZE
        match vr.2 with
        | [] => (setError fs .codeMissingValue key, false, 1)
        | _ :: _ =>
          let sub :=
            match fsysOpen fsys vr.2 with
            | none => (setError fs .codeOpenConfigFile (fs.configFlagName.getD []), false, 0)
            | some lines =>
              iniLoop n fsys fs { rest := lines, cur := [], fileOwned := true }
          if sub.2.1 then iniLoop n fsys sub.1 vr.1
          else (sub.1, false, 0)
      else
        match lookupConfigFlag fs key with
        | none =>
          if fs.ignoreUnknown then iniLoop n fsys fs p1
          else (setError fs .codeUnknown key, false, 1)
        | some ic =>
          let vr := iniParseValue p1 CONFIG_BUFFER_SIZE
          match vr.2 with
          | [] => (setError fs .codeMissingValue ic.2.name, false, 1)
          | _ :: _ =>
            let ar := applyConfigValue fs ic.1 ic.2 vr.2
            if ar.2 then iniLoop n fsys ar.1 vr.1
            else (ar.1, false, 1)

/-- `parseIniConfig(fs, filename)`: opens the named file — failure records
`OpenConfigFailed` naming the config flag — and runs the merge loop over a
parser owning the stream. -/
def parseIniConfig (fuel : Nat) (fsys : FileSys) (fs : FlagSet)
    (filename : List Char) : FlagSet × Bool × Nat :=
  match fsysOpen fsys filename with
  | none => (setError fs .codeOpenConfigFile (fs.configFlagName.getD []), false, 0)
  | some lines =>
    iniLoop fuel fsys fs { rest := lines, cur := [], fileOwned := true }

/-- The token-consuming loop of `flagSetParse`, over the arguments that
remain after the program name is discarded. -/
def flagSetParseLoop (fuel : Nat) (fsys : FileSys) (fs : FlagSet) :
    List (List Char) → FlagSet × Bool
  | [] => (fs, true)
  | flag :: rest =>
    if isConfigFlag fs flag then
      match rest with
      | [] => (setError fs .codeMissingValue flag, false)
      | filename :: rest2 =>
        let r := parseIniConfig fuel fsys fs filename
        if r.2.1 then flagSetParseLoop fuel fsys r.1 rest2 else (r.1, false)
    else
      match lookupFlag fs flag with
      | none =>
        if fs.ignoreUnknown then flagSetParseLoop fuel fsys fs rest
        else if isHelpFlag flag then (setError fs .codeHelp flag, false)
        else (setError fs .codeUnknown flag, false)
      | some ic =>
        match ic.2.type with
        | .tBool => flagSetParseLoop fuel fsys (setFlagValue fs ic.1 (.vBool true)) rest
        | .tString =>
          match rest with
          | [] => (setError fs .codeMissingValue ic.2.name, false)
          | v :: rest2 =>
            flagSetParseLoop fuel fsys (setFlagValue fs ic.1 (.vString (.borrowed v))) rest2
        | .tInt =>
          match rest with
          | [] => (setError fs .codeMissingValue ic.2.name, false)
          | v :: rest2 =>
            let rc := strtolModel v
            if rc.2 = 0 ∨ rc.1 < intMin ∨ intMax < rc.1 then
              (setError fs .codeInvalidValue ic.2.name, false)
            else flagSetParseLoop fuel fsys (setFlagValue fs ic.1 (.vInt rc.1)) rest2
        | .tFloat =>
          match rest with
          | [] => (setError fs .codeMissingValue ic.2.name, false)
          | v :: rest2 =>
            let c := strtofConsumed v
            if c = 0 then (setError fs .codeInvalidValue ic.2.name, false)
            else flagSetParseLoop fuel fsys (setFlagValue fs ic.1 (.vFloat (v.take c))) rest2
        | .tDouble =>
          match rest with
          | [] => (setError fs .codeMissingValue ic.2.name, false)
          | v :: rest2 =>
            let c := strtofConsumed v
            if c = 0 then (setError fs .codeInvalidValue ic.2.name, false)
            else flagSetParseLoop fuel fsys (setFlagValue fs ic.1 (.vDouble (v.take c))) rest2
        | .tTime =>
          match rest with
          | [] => (setError fs .codeMissingValue ic.2.name, false)
          | v :: rest2 =>
            let sr := strptimeModel v
            if sr.2 = some 0 then (setError fs .codeInvalidValue ic.2.name, false)
            else flagSetParseLoop fuel fsys (setFlagValue fs ic.1 (.vTime (mktimeModel sr.1))) rest2

/-- `flagSetParse(fs, argc, argv)`: discards the leading program token
(`shiftArgs` asserts `argc > 0`; the theorems below always pass it) and runs
the token loop.  `fuel` and `fsys` feed the INI merger as above. -/
def flagSetParse (fuel : Nat) (fsys : FileSys) (fs : FlagSet)
    (argv : List (List Char)) : FlagSet × Bool :=
  flagSetParseLoop fuel fsys fs argv.tail

/-! ## Spec-side formulation of token lookup (for the refinement claim C9) -/

/-- Formulation of spec §4.2 in the spec's own words: a two-dash-prefixed
token matches a name by exact-length prefix equality against the supplied
text — the registered name must begin with the token's trailing text — and a
bare `-X` matches a short name exactly; both scans are linear,
first-match-wins in declaration order. -/
def lookupFlagSpec (fs : FlagSet) (flag : List Char) : Option (Nat × Flag) :=
  match flag with
  | c0 :: c1 :: rest =>
    if c0 = '-' then
      if c1 = '-' then
        findFlag (fun f => rest.isPrefixOf f.name) fs.flags
      else if rest = [] then
        findFlag (fun f => f.shortName = c1) fs.flags
      else none
    else none
  | _ => none

/-! ## Fixtures: concrete registries and file systems used by the claims -/

/-- Registry with a config flag `config`/`-c` and a Bool flag `verbose`/`-v`. -/
def cfgVerboseSet : FlagSet :=
  flagSetBoolVar (flagSetConfig flagSetNew (("config").toList) 'c')
    (("verbose").toList) 'v'

/-- The `verbose` flag right after registration. -/
def verboseFlag : Flag := ⟨.tBool, ("verbose").toList, 'v', .vBool false⟩

/-- Files exercising the scanner's two error returns: a line whose first `=`
sits at index 0, and a line whose key has 70 characters (the key buffer holds
`FLAGS_FLAG_MAX_LEN - 1 = 63`). -/
def c1Fsys : FileSys :=
  [(("bad.ini").toList, [("=x").toList]),
   (("ovf.ini").toList, [List.replicate 70 'k' ++ (" = 1").toList])]

/-- Registry with one Time flag `when`/`-w`, default 7. -/
def c2Set : FlagSet := flagSetTimeVar flagSetNew (("when").toList) 'w' 7

/-- Same Time flag in a config-enabled registry. -/
def c2IniSet : FlagSet :=
  flagSetTimeVar (flagSetConfig flagSetNew (("config").toList) 'c')
    (("when").toList) 'w' 7

/-- A config file giving the Time flag a value that does not match
`FLAGS_TIME_FMT`. -/
def c2Fsys : FileSys := [(("t.ini").toList, [("when = zzz").toList])]

/-- Registry with one Int flag `num`/`-n`, default 5. -/
def c3Set : FlagSet := flagSetIntVar flagSetNew (("num").toList) 'n' 5

/-- The `num` flag right after registration. -/
def c3NumFlag : Flag := ⟨.tInt, ("num").toList, 'n', .vInt 5⟩

/-- Config files giving the Bool flag `verbose` the values `tru`, `maybe`,
`true` and `false`. -/
def c4Fsys : FileSys :=
  [(("tru.ini").toList, [("verbose = tru").toList]),
   (("maybe.ini").toList, [("verbose = maybe").toList]),
   (("true.ini").toList, [("verbose = true").toList]),
   (("false.ini").toList, [("verbose = false").toList])]

/-- Registry with only the Bool flag `verbose`/`-v` (no config flag). -/
def verboseOnlySet : FlagSet := flagSetBoolVar flagSetNew (("verbose").toList) 'v'

/-- Parser state over the two physical lines of the continuation example. -/
def c6Input : IniParser :=
  { rest := [("key = part1 \\").toList, ("part2").toList], cur := [], fileOwned := false }

/-- A well-formed config file, and an outer file that chains to a missing
file. -/
def c7Fsys : FileSys :=
  [(("ok.ini").toList, [("verbose = true").toList]),
   (("outer.ini").toList, [("config = missing.ini").toList])]

/-- Registry with one String flag `name`/`-n`, default empty. -/
def c8Set : FlagSet := flagSetStringVar flagSetNew (("name").toList) 'n' []

/-- The `name` flag right after registration. -/
def c8Flag : Flag := ⟨.tString, ("name").toList, 'n', .vString (.borrowed [])⟩

/-- Registry with `verbose` followed by `verb` (declaration order). -/
def verboseVerbSet : FlagSet :=
  flagSetBoolVar verboseOnlySet (("verb").toList) 'b'

/-! ## Claim C1 -/

/-- Claim C1 (code bug): the claim — following the spec — says that a key
syntax error or a key-buffer overflow reported by the scanner makes
`parseIniConfig` report failure through the unified error channel.  The code
instead exits the `while (... > 0)` loop exactly as on EOF and returns
success with no error recorded: a file whose only line is `=x` (first `=` at
index 0) and a file whose only key has 70 characters both "merge"
successfully, leaving the set untouched with `error_code == NONE` (and, per
C7's accounting, without freeing the parser). -/
theorem c1_scanner_errors_ignored :
    parseIniConfig 10 c1Fsys cfgVerboseSet (("bad.ini").toList) = (cfgVerboseSet, true, 0) ∧
    parseIniConfig 10 c1Fsys cfgVerboseSet (("ovf.ini").toList) = (cfgVerboseSet, true, 0) ∧
    cfgVerboseSet.errorCode = .codeNone :=
  ⟨rfl, rfl, rfl⟩

/-! ## Claim C2 -/

/-- Claim C2 (code bug): the claim says a source text not matching
`FLAGS_TIME_FMT` yields `InvalidValue` and leaves the destination unwritten.
The code tests `strptime(value, FMT, &result) == value`, but on a mismatch
`strptime` returns `NULL`, never the input pointer, so the dead error branch
is skipped and `mktime` of the zero-initialized `tm` is written into the
destination: parsing `--when zzz` (and the config line `when = zzz`)
succeeds, records no error, and overwrites the default 7. -/
theorem c2_time_mismatch_not_rejected :
    flagSetParse 1 [] c2Set [("prog").toList, ("--when").toList, ("zzz").toList]
      = (setFlagValue c2Set 0 (.vTime (mktimeModel zeroTm)), true) ∧
    (setFlagValue c2Set 0 (.vTime (mktimeModel zeroTm))).errorCode = .codeNone ∧
    mktimeModel zeroTm ≠ 7 ∧
    parseIniConfig 10 c2Fsys c2IniSet (("t.ini").toList)
      = (setFlagValue c2IniSet 0 (.vTime (mktimeModel zeroTm)), true, 0) :=
  ⟨rfl, rfl, by decide, rfl⟩

/-! ## Claim C3 -/

/-- Counterexample to claim C3: the claim says leftover characters after the
digits yield `InvalidValue` with the destination unchanged; parsing
`--num 123abc` instead succeeds with no error and stores 123 (`strtol` stops
at `a` and the code never inspects `*end`). -/
theorem c3_counterexample :
    flagSetParse 1 [] c3Set [("prog").toList, ("--num").toList, ("123abc").toList]
      = (setFlagValue c3Set 0 (.vInt 123), true) ∧
    (setFlagValue c3Set 0 (.vInt 123)).errorCode = .codeNone :=
  ⟨rfl, rfl⟩

/-- Claim C3 (amended): Int coercion — on the command-line path and on the
config path — parses a base-10 prefix (optional whitespace, optional sign,
digits); it fails with `InvalidValue` naming the flag, leaving every
destination unchanged, exactly when no character is consumed or the value
lies outside the signed 32-bit range; otherwise it stores the value of the
parsed prefix and ignores any leftover characters. -/
theorem c3_int_coercion (v : List Char) :
    flagSetParse 1 [] c3Set [("prog").toList, ("--num").toList, v] =
      (if (strtolModel v).2 = 0 ∨ (strtolModel v).1 < intMin ∨ intMax < (strtolModel v).1
       then (setError c3Set .codeInvalidValue (("num").toList), false)
       else (setFlagValue c3Set 0 (.vInt (strtolModel v).1), true)) ∧
    applyConfigValue c3Set 0 c3NumFlag v =
      (if (strtolModel v).2 = 0 ∨ (strtolModel v).1 < intMin ∨ intMax < (strtolModel v).1
       then (setError c3Set .codeInvalidValue (("num").toList), false)
       else (setFlagValue c3Set 0 (.vInt (strtolModel v).1), true)) :=
  ⟨rfl, rfl⟩

/-! ## Claim C4 -/

/-- Counterexample to claim C4: the claim says every value other than exactly
`true`/`false` — in particular the proper prefix `tru` — yields
`InvalidValue`; merging `verbose = tru` instead sets the destination to true
with no error, because `strncmp(buf, "true", value_len)` compares only the
value's own length. -/
theorem c4_counterexample :
    parseIniConfig 10 c4Fsys cfgVerboseSet (("tru.ini").toList)
      = (setFlagValue cfgVerboseSet 0 (.vBool true), true, 0) ∧
    (setFlagValue cfgVerboseSet 0 (.vBool true)).errorCode = .codeNone :=
  ⟨rfl, rfl⟩

/-- Claim C4 (amended): for a Bool-typed flag matched from a config file, a
value sets the destination to true exactly when it is a prefix of `true`
(so `true` itself, but also `t`, `tr`, `tru`), to false exactly when it is a
prefix of `false`, and every other value yields `InvalidValue` naming the
flag; `maybe` yields `InvalidValue`, `true`/`false` still set true/false. -/
theorem c4_bool_prefix_semantics :
    (∀ v : List Char,
      applyConfigValue cfgVerboseSet 0 verboseFlag v =
        if v.isPrefixOf (("true").toList) then
          (setFlagValue cfgVerboseSet 0 (.vBool true), true)
        else if v.isPrefixOf (("false").toList) then
          (setFlagValue cfgVerboseSet 0 (.vBool false), true)
        else (setError cfgVerboseSet .codeInvalidValue (("verbose").toList), false)) ∧
    parseIniConfig 10 c4Fsys cfgVerboseSet (("true.ini").toList)
      = (setFlagValue cfgVerboseSet 0 (.vBool true), true, 0) ∧
    parseIniConfig 10 c4Fsys cfgVerboseSet (("false.ini").toList)
      = (setFlagValue cfgVerboseSet 0 (.vBool false), true, 0) ∧
    parseIniConfig 10 c4Fsys cfgVerboseSet (("maybe.ini").toList)
      = (setError cfgVerboseSet .codeInvalidValue (("verbose").toList), false, 1) := by
  refine ⟨fun v => ?_, rfl, rfl, rfl⟩
  have h1 : applyConfigValue cfgVerboseSet 0 verboseFlag v =
      (if cstrncmpEq v (("true").toList) v.length then
        (setFlagValue cfgVerboseSet 0 (.vBool true), true)
      else if cstrncmpEq v (("false").toList) v.length then
        (setFlagValue cfgVerboseSet 0 (.vBool false), true)
      else (setError cfgVerboseSet .codeInvalidValue (("verbose").toList), false)) := rfl
  rw [h1, cstrncmpEq_self_len, cstrncmpEq_self_len]

/-! ## Claim C5 -/

/-- Counterexample to claim C5: the claim says a key that is a proper prefix
of a registered name (and equals no registered name) matches nothing;
`lookupConfigFlag` on the key `verb` against the single registered flag
`verbose` instead reports a match, because it scans with
`strncmp(item->name, flag, strlen(flag))`. -/
theorem c5_counterexample :
    lookupConfigFlag verboseOnlySet (("verb").toList) = some (0, verboseFlag) ∧
    (("verb").toList).isPrefixOf (("verbose").toList) = true ∧
    ("verb").toList ≠ ("verbose").toList :=
  ⟨rfl, rfl, by decide⟩

/-- Claim C5 (amended): config-file key lookup matches by prefix, not by
exact equality: a non-empty key matches the first registered flag — in
declaration order — whose full name begins with the key; an empty key
matches nothing. -/
theorem c5_config_lookup (fs : FlagSet) (key : List Char) :
    lookupConfigFlag fs key =
      if key = [] then none
      else findFlag (fun f => key.isPrefixOf f.name) fs.flags := by
  have h : (fun f : Flag => cstrncmpEq f.name key key.length)
      = (fun f : Flag => key.isPrefixOf f.name) :=
    funext fun f => cstrncmpEq_arg_len f.name key
  unfold lookupConfigFlag
  rw [h]
  cases key <;> simp

/-! ## Claim C6 -/

/-- Counterexample to claim C6: the claim says the file `key = part1 \`
followed by `part2` yields exactly `part1 part2` with no trailing space; the
value produced is `part1 part2 ` — the joining loop appends its one-space
separator after every fragment, including the final one. -/
theorem c6_counterexample :
    (iniParseKey c6Input FLAGS_FLAG_MAX_LEN).2 = .found (("key").toList) ∧
    (iniParseValue (iniParseKey c6Input FLAGS_FLAG_MAX_LEN).1 CONFIG_BUFFER_SIZE).2
      = ("part1 part2 ").toList ∧
    ("part1 part2 ").toList ≠ ("part1 part2").toList :=
  ⟨rfl, rfl, by decide⟩

/-- Claim C6 (amended): parsing the line `key = part1 \` followed by `part2`
produces for `key` the fragments joined with one inserted space and the
continuation marker stripped, but with one further space appended after the
final fragment (capacity permitting): the value is `part1 part2` followed by
a single trailing space. -/
theorem c6_continuation_join :
    (iniParseKey c6Input FLAGS_FLAG_MAX_LEN).2 = .found (("key").toList) ∧
    (iniParseValue (iniParseKey c6Input FLAGS_FLAG_MAX_LEN).1 CONFIG_BUFFER_SIZE).2
      = ("part1 part2").toList ++ [' '] :=
  ⟨rfl, rfl⟩

/-! ## Claim C7 -/

/-- Claim C7 (code bug): the claim — following the spec — says the parser
created for a file is released exactly once on every exit path.  The free
count instrumented into `parseIniConfig` shows two exit paths that never
release it: the success path (the final `return true` follows the loop with
no `iniParserFree`), here a file that merges cleanly, and the nested-chain
failure path (`if (!parseIniConfig(fs, buf)) return false;`), here an outer
file chaining to a missing file — both leak the stream the invocation itself
opened.  (The five in-loop error paths do free the parser; the claim fails on
"every exit path".) -/
theorem c7_stream_leaked :
    parseIniConfig 10 c7Fsys cfgVerboseSet (("ok.ini").toList)
      = (setFlagValue cfgVerboseSet 0 (.vBool true), true, 0) ∧
    (parseIniConfig 10 c7Fsys cfgVerboseSet (("outer.ini").toList)).2 = (false, 0) ∧
    (parseIniConfig 10 c7Fsys cfgVerboseSet (("outer.ini").toList)).1.errorCode
      = .codeOpenConfigFile :=
  ⟨rfl, rfl, rfl⟩

/-! ## Claim C8 -/

/-- Counterexample to claim C8: the claim says a String flag set from a
command-line token receives a copy owned by the parser; the command-line
path executes `*((char**)conf->ptr) = value;`, storing a reference into the
caller-owned token storage (no `stringDuplicate` call), modelled as a
`borrowed` value. -/
theorem c8_counterexample :
    flagSetParse 1 [] c8Set [("prog").toList, ("--name").toList, ("hello").toList]
      = (setFlagValue c8Set 0 (.vString (.borrowed (("hello").toList))), true) ∧
    strValIsOwned (.borrowed (("hello").toList)) = false :=
  ⟨rfl, rfl⟩

/-- Claim C8 (amended): only the config path stores a parser-owned
bounded copy (`stringDuplicate(buf, value_len)`, which copies the whole
extracted value); the command-line path stores the token itself by
reference into the caller's argv storage. -/
theorem c8_string_storage (v : List Char) :
    flagSetParse 1 [] c8Set [("prog").toList, ("--name").toList, v]
      = (setFlagValue c8Set 0 (.vString (.borrowed v)), true) ∧
    applyConfigValue c8Set 0 c8Flag v
      = (setFlagValue c8Set 0 (.vString (.owned (stringDuplicate v v.length))), true) ∧
    stringDuplicate v v.length = v := by
  refine ⟨rfl, rfl, ?_⟩
  simp [stringDuplicate]

/-! ## Claim C9 -/

/-- Claim C9: long-token lookup matches a two-dash token against registered
names by exact-length prefix equality (the registered name must begin with
the token's trailing text), linearly in declaration order with
first-match-wins, and a bare `-X` matches only an exact short name —
`lookupFlag` coincides with the spec-side `lookupFlagSpec` on every token.
Instances: registering `--verbose` and parsing `--verb` matches it;
registering both `--verbose` and `--verb` resolves `--verb` to the
first-registered flag; `-v` matches the short name exactly and `-x` matches
nothing. -/
theorem c9_lookup_token_matching :
    (∀ (fs : FlagSet) (tok : List Char), lookupFlag fs tok = lookupFlagSpec fs tok) ∧
    lookupFlag verboseOnlySet (("--verb").toList) = some (0, verboseFlag) ∧
    lookupFlag verboseVerbSet (("--verb").toList) = some (0, verboseFlag) ∧
    lookupFlag verboseOnlySet (("-v").toList) = some (0, verboseFlag) ∧
    lookupFlag verboseOnlySet (("-x").toList) = none := by
  refine ⟨fun fs tok => ?_, rfl, rfl, rfl, rfl⟩
  match tok with
  | [] => rfl
  | [c] => rfl
  | c0 :: c1 :: rest =>
    have h : (fun f : Flag => cstrncmpEq f.name rest rest.length)
        = (fun f : Flag => rest.isPrefixOf f.name) :=
      funext fun f => cstrncmpEq_arg_len f.name rest
    simp only [lookupFlag, lookupFlagSpec, h]

/-! ## Claim C10 -/

/-- Counterexample to claim C10: the claim quantifies over every registry
with at least one registered flag, but when a config flag is registered the
bare token `--` is captured by `isConfigFlag` first (its empty trailing text
prefix-matches the config-flag name), so parsing `["prog", "--"]` demands a
following filename and fails with `MissingValue` — the first-registered Bool
flag `verbose` is not set. -/
theorem c10_counterexample :
    flagSetParse 1 [] cfgVerboseSet [("prog").toList, ("--").toList]
      = (setError cfgVerboseSet .codeMissingValue (("--").toList), false) ∧
    (setError cfgVerboseSet .codeMissingValue (("--").toList)).errorCode
      = .codeMissingValue ∧
    (setError cfgVerboseSet .codeMissingValue (("--").toList)).flags
      = cfgVerboseSet.flags :=
  ⟨rfl, rfl, rfl⟩

/-- Claim C10 (amended): in a registry whose config flag is not registered,
for every non-empty flag list the bare token `--` matches the
first-registered flag (its empty trailing text prefix-matches every name),
and parsing it when that flag is Bool-typed sets the flag to true and
succeeds rather than reporting `UnknownFlag`. -/
theorem c10_dashdash (fs : FlagSet) (f : Flag) (tl : List Flag)
    (hc : fs.configFlagName = none) (hf : fs.flags = f :: tl)
    (hb : f.type = .tBool) :
    lookupFlag fs (("--").toList) = some (0, f) ∧
    flagSetParse 1 [] fs [("prog").toList, ("--").toList]
      = (setFlagValue fs 0 (.vBool true), true) := by
  have ht : ("--").toList = ['-', '-'] := rfl
  have hl : lookupFlag fs (("--").toList) = some (0, f) := by
    rw [ht]
    show findFlag (fun g => cstrncmpEq g.name [] (0 : Nat)) fs.flags = some (0, f)
    rw [hf]
    simp [findFlag, findFlagAux, cstrncmpEq_zero]
  have hcf : isConfigFlag fs (("--").toList) = false := by
    unfold isConfigFlag
    rw [hc]
  refine ⟨hl, ?_⟩
  have hp : flagSetParse 1 [] fs [("prog").toList, ("--").toList]
      = flagSetParseLoop 1 [] fs [("--").toList] := rfl
  rw [hp]
  simp only [flagSetParseLoop, hcf, Bool.false_eq_true, if_false, hl, hb]

/-- Witness for C10 (amended) at the concrete registry containing only the
Bool flag `verbose`. -/
theorem c10_dashdash_witness :
    lookupFlag verboseOnlySet (("--").toList) = some (0, verboseFlag) ∧
    flagSetParse 1 [] verboseOnlySet [("prog").toList, ("--").toList]
      = (setFlagValue verboseOnlySet 0 (.vBool true), true) :=
  c10_dashdash verboseOnlySet verboseFlag [] rfl rfl rfl

end FlagLib
